import Mathlib

/-!
Verification development for the medicine-dispenser backend (`app.py`).

The embedding models the rows of the `dose_log` table as `DoseEvent`
records with integer timestamps (seconds since the epoch), so that
`DATE(timestamp)` becomes integer division by 86400.  Each HTTP handler
is embedded as a pure function over the list of stored rows:

* `log_dose`        — POST /log_dose (validation and insertion);
* `get_events`      — GET /api/events (date filtering, ordering, limit);
* `get_statistics`  — GET /api/statistics (totals, adherence, streaks);
* `events_by_day`   — the `daily_breakdown` dictionary of /api/statistics.

SQL aggregates (`GROUP BY DATE(timestamp) ORDER BY date DESC`, counts and
sums) are embedded as list operations over the stored rows; the Python
float arithmetic of the adherence percentage is idealised as exact
rational arithmetic with round-half-to-even (Python's `round`).
-/

namespace MedDispenser

/-- One row of the `dose_log` table. -/
structure DoseEvent where
  id : Nat
  event_type : String
  dose_number : Option Int
  timestamp : Nat
deriving DecidableEq, Repr

def secondsPerDay : Nat := 86400

/-- `DATE(timestamp)`: the calendar-day index of an event. -/
def dateOf (e : DoseEvent) : Nat := e.timestamp / secondsPerDay

/-- Insert a date into a strictly descending list of dates, keeping it
descending and duplicate-free (the `GROUP BY date ORDER BY date DESC` keys). -/
def insertDateDesc (d : Nat) : List Nat → List Nat
  | [] => [d]
  | x :: xs =>
    if x < d then d :: x :: xs
    else if d = x then x :: xs
    else x :: insertDateDesc d xs

/-- The distinct calendar dates of the events, in descending order. -/
def datesDesc (evs : List DoseEvent) : List Nat :=
  evs.foldr (fun e acc => insertDateDesc (dateOf e) acc) []

/-- `SUM(CASE WHEN event_type = s THEN 1 ELSE 0 END)` restricted to one date. -/
def countOn (evs : List DoseEvent) (d : Nat) (s : String) : Nat :=
  (evs.filter (fun e => dateOf e == d && e.event_type == s)).length

/-- `COUNT(*)` restricted to one date. -/
def totalOn (evs : List DoseEvent) (d : Nat) : Nat :=
  (evs.filter (fun e => dateOf e == d)).length

/-- The rows of the streak query: for each date (descending),
`(date, total_doses, taken_doses)`. -/
def dailyData (evs : List DoseEvent) : List (Nat × Nat × Nat) :=
  (datesDesc evs).map (fun d => (d, totalOn evs d, countOn evs d "TAKEN"))

/-- One iteration of the streak loop.  State is `(best_streak, temp_streak)`;
a day with `taken_doses >= 3` increments `temp_streak` and updates
`best_streak`, any other day resets `temp_streak` to 0. -/
def streakStep (s : Nat × Nat) (dd : Nat × Nat × Nat) : Nat × Nat :=
  if 3 ≤ dd.2.2 then (max s.1 (s.2 + 1), s.2 + 1) else (s.1, 0)

/-- The streak scan over the per-date rows, returning
`(current_streak, best_streak)` exactly as the loop in `get_statistics`
computes them (`current_streak` is `temp_streak` after the whole scan). -/
def streaks (evs : List DoseEvent) : Nat × Nat :=
  let s := (dailyData evs).foldl streakStep (0, 0)
  (s.2, s.1)

/-- Round-half-to-even to an integer (Python's `round` on exact values). -/
def roundHalfEven (q : ℚ) : ℤ :=
  if q - ⌊q⌋ = 1 / 2 then (if 2 ∣ ⌊q⌋ then ⌊q⌋ else ⌊q⌋ + 1)
  else if q - ⌊q⌋ < 1 / 2 then ⌊q⌋ else ⌊q⌋ + 1

/-- Round to two decimal places (Python's `round(x, 2)`). -/
def round2 (q : ℚ) : ℚ := (roundHalfEven (q * 100) : ℚ) / 100

/-- The `statistics` object of the GET /api/statistics response. -/
structure Stats where
  total_doses : Nat
  doses_taken : Nat
  doses_missed : Nat
  adherence_percentage : ℚ
  current_streak : Nat
  best_streak : Nat
deriving DecidableEq, Repr

/-- GET /api/statistics, applied to the rows of the trailing window.
Mirrors `get_statistics` in `app.py`: totals, adherence percentage
(`taken / total * 100` when `total > 0`, else 0, rounded to 2 decimals in
the response), and the streak scan over the per-date rows. -/
def get_statistics (evs : List DoseEvent) : Stats :=
  let total := evs.length
  let taken := (evs.filter (fun e => e.event_type == "TAKEN")).length
  let missed := (evs.filter (fun e => e.event_type == "MISSED")).length
  let adherence_percentage : ℚ := if 0 < total then (taken : ℚ) / total * 100 else 0
  let s := streaks evs
  { total_doses := total
    doses_taken := taken
    doses_missed := missed
    adherence_percentage := round2 adherence_percentage
    current_streak := s.1
    best_streak := s.2 }

/-- A TAKEN event on day `d`, at second `k` of the day. -/
def mkT (d k : Nat) : DoseEvent :=
  { id := 0, event_type := "TAKEN", dose_number := some 1, timestamp := d * secondsPerDay + k }

/-- A MISSED event on day `d`, at second `k` of the day. -/
def mkM (d k : Nat) : DoseEvent :=
  { id := 0, event_type := "MISSED", dose_number := some 1, timestamp := d * secondsPerDay + k }

/-- Spec scenario for C1: 3 TAKEN on each of days D-3, D-2, D-1 and a
single TAKEN on day D (here D = 100). -/
def scenarioA : List DoseEvent :=
  [mkT 97 0, mkT 97 1, mkT 97 2,
   mkT 98 0, mkT 98 1, mkT 98 2,
   mkT 99 0, mkT 99 1, mkT 99 2,
   mkT 100 0]

/-- Spec scenario for C2/C3: 3 TAKEN on day D-2, 3 TAKEN on day D-1,
1 TAKEN and 2 MISSED on day D (here D = 100). -/
def scenarioB : List DoseEvent :=
  [mkT 98 0, mkT 98 1, mkT 98 2,
   mkT 99 0, mkT 99 1, mkT 99 2,
   mkT 100 0, mkM 100 1, mkM 100 2]

/-- Following the spec's words for the streak scan: the successive values of
the running streak counter, scanning the per-date rows in the given
(descending-date) order, starting from counter value `t`.  The counter
increments on each date with at least 3 TAKEN doses and resets to 0 on any
other date present. -/
def counterValues (t : Nat) : List (Nat × Nat × Nat) → List Nat
  | [] => []
  | dd :: rest =>
    let t2 := if 3 ≤ dd.2.2 then t + 1 else 0
    t2 :: counterValues t2 rest

/-- JSON values, as far as the request bodies of this service need them. -/
inductive JVal where
  | str (s : String)
  | int (n : Int)
  | null
deriving DecidableEq, Repr

/-- Python's `data.get(k)`: the value at a key, `None` when the key is absent. -/
def jGet (kvs : List (String × JVal)) (k : String) : JVal :=
  match kvs.find? (fun kv => kv.1 == k) with
  | some kv => kv.2
  | none => JVal.null

/-- POST /log_dose.  The request body is `none` when no JSON object was sent,
otherwise the object's key/value pairs.  Python's `not data or 'event_type'
not in data` check rejects a missing body, an empty object (falsy), and an
object without the `event_type` key with a 400; otherwise the handler inserts
`(event_type, dose_number)` into `dose_log` and returns 201.  The result is
the HTTP status together with the table after the request. -/
def log_dose (data : Option (List (String × JVal))) (db : List (JVal × JVal)) :
    Nat × List (JVal × JVal) :=
  match data with
  | none => (400, db)
  | some kvs =>
    if kvs.isEmpty || !(kvs.any (fun kv => kv.1 == "event_type")) then (400, db)
    else (201, db ++ [(jGet kvs "event_type", jGet kvs "dose_number")])

/-- The ordering used by `ORDER BY timestamp DESC`. -/
def tsGe (a b : DoseEvent) : Prop := b.timestamp ≤ a.timestamp

instance : DecidableRel tsGe := fun a b => Nat.decLe b.timestamp a.timestamp

instance : IsTotal DoseEvent tsGe := ⟨fun a b => Nat.le_total b.timestamp a.timestamp⟩

instance : IsTrans DoseEvent tsGe := ⟨fun _ _ _ hab hbc => Nat.le_trans hbc hab⟩

/-- GET /api/events.  `start_date` and `end_date` are calendar-day indices;
`timestamp >= start_date` compares against midnight of `start_date`, and the
handler extends `end_date` by the literal string ` 23:59:59`, i.e. to the
last second of that day.  The rows are ordered by timestamp descending and
capped at `limit` rows (default 100). -/
def get_events (start_date end_date lim : Option Nat) (db : List DoseEvent) :
    List DoseEvent :=
  (List.insertionSort tsGe (db.filter (fun e =>
    (match start_date with
     | some d1 => decide (d1 * secondsPerDay ≤ e.timestamp)
     | none => true) &&
    (match end_date with
     | some d2 => decide (e.timestamp ≤ d2 * secondsPerDay + 86399)
     | none => true)))).take (lim.getD 100)

/-- The distinct event types logged on a date (the `event_type` keys of the
`GROUP BY DATE(timestamp), event_type` query, within one date). -/
def eventTypesOn (evs : List DoseEvent) (d : Nat) : List String :=
  ((evs.filter (fun e => dateOf e == d)).map (fun e => e.event_type)).dedup

/-- The rows of the third statistics query: for each date (descending) and
each event type present on that date, `(date, event_type, count)`. -/
def daily_events (evs : List DoseEvent) : List (Nat × String × Nat) :=
  (datesDesc evs).flatMap (fun d =>
    (eventTypesOn evs d).map (fun et => (d, et, countOn evs d et)))

/-- One iteration of the daily-breakdown loop: ensure the row's date has an
entry (created as `taken 0, missed 0`), then overwrite the `taken` or
`missed` field with the group's count.  The Python dictionary is modelled as
a partial map from dates to `(taken, missed)` pairs. -/
def breakdownStep (m : Nat → Option (Nat × Nat)) (row : Nat × String × Nat) :
    Nat → Option (Nat × Nat) := fun d =>
  if d = row.1 then
    let cur := (m row.1).getD (0, 0)
    some (if row.2.1 == "TAKEN" then (row.2.2, cur.2)
          else if row.2.1 == "MISSED" then (cur.1, row.2.2)
          else cur)
  else m d

/-- The `daily_breakdown` dictionary of the GET /api/statistics response. -/
def events_by_day (evs : List DoseEvent) : Nat → Option (Nat × Nat) :=
  (daily_events evs).foldl breakdownStep (fun _ => none)

/-- The value a given field (`"TAKEN"` or `"MISSED"` column) of date `d`'s
entry holds after the breakdown loop has processed the rows `rs`, starting
from field value `i` (last-write semantics). -/
def finalField (s : String) (rs : List (Nat × String × Nat)) (d : Nat) (i : Nat) : Nat :=
  rs.foldl (fun a r => if r.1 == d && r.2.1 == s then r.2.2 else a) i

/-- A row whose event type is neither TAKEN nor MISSED. -/
def skippedEvent : DoseEvent :=
  { id := 0, event_type := "SKIPPED", dose_number := none, timestamp := 0 }

/-- Two complete days with a one-day logging gap between them (days 100 and
102, nothing on day 101). -/
def gapEvents : List DoseEvent :=
  [mkT 100 0, mkT 100 1, mkT 100 2, mkT 102 0, mkT 102 1, mkT 102 2]

/-- A very old row (day 0). -/
def oldRow : DoseEvent := mkT 0 0

/-- A much newer row (day 50). -/
def newRow : DoseEvent := mkT 50 0

/-- A store holding one very old and one much newer row. -/
def gapDb : List DoseEvent := [oldRow, newRow]

section Lemmas

/-- The `best_streak` accumulator of the streak loop computes the maximum of
the running counter's values, started from the accumulator's initial value. -/
theorem foldl_streakStep_best (l : List (Nat × Nat × Nat)) :
    ∀ b t : Nat, (l.foldl streakStep (b, t)).1 = (counterValues t l).foldl max b := by
  induction l with
  | nil => intro b t; rfl
  | cons dd rest ih =>
    intro b t
    by_cases h : 3 ≤ dd.2.2
    · simp only [List.foldl_cons, streakStep, if_pos h, counterValues]
      exact ih (max b (t + 1)) (t + 1)
    · simp only [List.foldl_cons, streakStep, if_neg h, counterValues]
      rw [ih b 0, Nat.max_zero]

theorem mem_insertDateDesc {a d : Nat} :
    ∀ l : List Nat, a ∈ insertDateDesc d l ↔ a = d ∨ a ∈ l
  | [] => by simp [insertDateDesc]
  | x :: xs => by
    simp only [insertDateDesc]
    by_cases h1 : x < d
    · simp [h1]
    · by_cases h2 : d = x
      · subst h2
        simp [h1, List.mem_cons]
      · simp [h1, h2, List.mem_cons, mem_insertDateDesc xs]
        tauto

theorem mem_datesDesc {d : Nat} :
    ∀ evs : List DoseEvent, d ∈ datesDesc evs ↔ ∃ e ∈ evs, dateOf e = d
  | [] => by simp [datesDesc]
  | e :: rest => by
    have hfold : datesDesc (e :: rest) = insertDateDesc (dateOf e) (datesDesc rest) := rfl
    rw [hfold, mem_insertDateDesc, mem_datesDesc rest]
    constructor
    · rintro (h | ⟨e2, he2, hd⟩)
      · exact ⟨e, List.mem_cons_self e rest, h.symm⟩
      · exact ⟨e2, List.mem_cons_of_mem e he2, hd⟩
    · rintro ⟨e2, he2, hd⟩
      rcases List.mem_cons.mp he2 with h | h
      · subst h
        exact Or.inl hd.symm
      · exact Or.inr ⟨e2, h, hd⟩

theorem filter_taken_missed_le :
    ∀ evs : List DoseEvent,
      (evs.filter (fun e => e.event_type == "TAKEN")).length +
        (evs.filter (fun e => e.event_type == "MISSED")).length ≤ evs.length := by
  intro evs
  induction evs with
  | nil => simp
  | cons e l ih =>
    by_cases h1 : e.event_type = "TAKEN"
    · have h2 : ¬ e.event_type = "MISSED" := by simp [h1]
      simp [List.filter_cons, h1, h2]
      omega
    · by_cases h2 : e.event_type = "MISSED"
      · simp [List.filter_cons, h1, h2]
        omega
      · simp [List.filter_cons, h1, h2]
        omega

theorem finalField_cons (s : String) (r : Nat × String × Nat)
    (rest : List (Nat × String × Nat)) (d i : Nat) :
    finalField s (r :: rest) d i =
      finalField s rest d (if r.1 == d && r.2.1 == s then r.2.2 else i) := rfl

theorem finalField_of_no_key (s : String) (d : Nat) :
    ∀ (rs : List (Nat × String × Nat)) (i : Nat),
      (∀ r ∈ rs, r.1 ≠ d) → finalField s rs d i = i := by
  intro rs
  induction rs with
  | nil => intro i _; rfl
  | cons r rest ih =>
    intro i h
    have hr : r.1 ≠ d := h r (List.mem_cons_self r rest)
    have hb : (r.1 == d) = false := by simp [hr]
    rw [finalField_cons, hb]
    simp only [Bool.false_and, Bool.false_eq_true, if_false]
    exact ih i (fun r2 h2 => h r2 (List.mem_cons_of_mem r h2))

theorem finalField_append (s : String) (d : Nat) (xs ys : List (Nat × String × Nat))
    (i : Nat) :
    finalField s (xs ++ ys) d i = finalField s ys d (finalField s xs d i) := by
  simp [finalField]

theorem finalField_map_types (d : Nat) (s : String) (cnt : String → Nat) :
    ∀ (ets : List String) (i : Nat),
      finalField s (ets.map (fun et => (d, et, cnt et))) d i =
        if s ∈ ets then cnt s else i := by
  intro ets
  induction ets with
  | nil => intro i; simp [finalField]
  | cons et rest ih =>
    intro i
    rw [List.map_cons, finalField_cons, ih]
    by_cases hmem : s ∈ rest
    · simp [hmem, List.mem_cons]
    · by_cases he : et = s
      · subst he
        simp [hmem, List.mem_cons]
      · have hne : ¬ s = et := fun hh => he hh.symm
        have hb : (et == s) = false := by simp [he]
        simp [hmem, hne, hb, List.mem_cons]

theorem mem_eventTypesOn {evs : List DoseEvent} {d : Nat} {s : String} :
    s ∈ eventTypesOn evs d ↔ ∃ e ∈ evs, dateOf e = d ∧ e.event_type = s := by
  simp only [eventTypesOn, List.mem_dedup, List.mem_map, List.mem_filter,
    Bool.and_eq_true, beq_iff_eq]
  constructor
  · rintro ⟨e, ⟨he, hd⟩, hs⟩
    exact ⟨e, he, hd, hs⟩
  · rintro ⟨e, he, hd, hs⟩
    exact ⟨e, ⟨he, hd⟩, hs⟩

theorem countOn_pos {evs : List DoseEvent} {d : Nat} {s : String} :
    0 < countOn evs d s ↔ ∃ e ∈ evs, dateOf e = d ∧ e.event_type = s := by
  rw [countOn, List.length_pos_iff_exists_mem]
  constructor
  · rintro ⟨e, he⟩
    have h := List.mem_filter.mp he
    have hb := h.2
    simp only [Bool.and_eq_true, beq_iff_eq] at hb
    exact ⟨e, h.1, hb.1, hb.2⟩
  · rintro ⟨e, he, hd, hs⟩
    exact ⟨e, List.mem_filter.mpr ⟨he, by simp [hd, hs]⟩⟩

theorem countOn_eq_zero_of_no_event {evs : List DoseEvent} {d : Nat} {s : String}
    (h : ¬ ∃ e ∈ evs, dateOf e = d ∧ e.event_type = s) : countOn evs d s = 0 := by
  by_contra hne
  exact h (countOn_pos.mp (Nat.pos_of_ne_zero hne))

theorem finalField_block (evs : List DoseEvent) (s : String) (d : Nat) (i : Nat) :
    finalField s ((eventTypesOn evs d).map (fun et => (d, et, countOn evs d et))) d i =
      if s ∈ eventTypesOn evs d then countOn evs d s else i :=
  finalField_map_types d s (fun et => countOn evs d et) (eventTypesOn evs d) i

theorem finalField_daily_events (evs : List DoseEvent) (s : String) (d : Nat) :
    finalField s (daily_events evs) d 0 = countOn evs d s := by
  have main : ∀ (dates : List Nat) (i : Nat),
      finalField s (dates.flatMap (fun d2 =>
        (eventTypesOn evs d2).map (fun et => (d2, et, countOn evs d2 et)))) d i =
        if d ∈ dates then (if s ∈ eventTypesOn evs d then countOn evs d s else i)
        else i := by
    intro dates
    induction dates with
    | nil => intro i; simp [finalField]
    | cons d2 rest ih =>
      intro i
      rw [List.flatMap_cons, finalField_append, ih]
      by_cases hd : d2 = d
      · subst hd
        rw [finalField_block]
        by_cases hmem : d2 ∈ rest
        · by_cases hs : s ∈ eventTypesOn evs d2
          · simp [hmem, hs, List.mem_cons]
          · simp [hmem, hs, List.mem_cons]
        · simp [hmem, List.mem_cons]
      · have hblock : finalField s ((eventTypesOn evs d2).map
            (fun et => (d2, et, countOn evs d2 et))) d i = i := by
          apply finalField_of_no_key
          intro r hr
          rcases List.mem_map.mp hr with ⟨et, _, rfl⟩
          exact hd
        rw [hblock]
        have hne : ¬ d = d2 := fun hh => hd hh.symm
        by_cases hmem : d ∈ rest
        · simp [hmem, List.mem_cons, hne]
        · simp [hmem, List.mem_cons, hne]
  have h := main (datesDesc evs) 0
  rw [show daily_events evs = (datesDesc evs).flatMap (fun d2 =>
      (eventTypesOn evs d2).map (fun et => (d2, et, countOn evs d2 et))) from rfl, h]
  by_cases hd : d ∈ datesDesc evs
  · rw [if_pos hd]
    by_cases hs : s ∈ eventTypesOn evs d
    · rw [if_pos hs]
    · rw [if_neg hs]
      have h0 : countOn evs d s = 0 := by
        apply countOn_eq_zero_of_no_event
        intro hex
        exact hs (mem_eventTypesOn.mpr hex)
      omega
  · rw [if_neg hd]
    have h0 : countOn evs d s = 0 := by
      apply countOn_eq_zero_of_no_event
      rintro ⟨e, he, hde, _⟩
      exact hd ((mem_datesDesc evs).mpr ⟨e, he, hde⟩)
    omega

theorem breakdownStep_other (m : Nat → Option (Nat × Nat)) (r : Nat × String × Nat)
    (d : Nat) (h : d ≠ r.1) : (breakdownStep m r) d = m d := by
  simp [breakdownStep, h]

theorem breakdownStep_key (m : Nat → Option (Nat × Nat)) (r : Nat × String × Nat) :
    (breakdownStep m r) r.1 =
      some (if r.2.1 == "TAKEN" then r.2.2 else ((m r.1).getD (0, 0)).1,
            if r.2.1 == "MISSED" then r.2.2 else ((m r.1).getD (0, 0)).2) := by
  by_cases t1 : r.2.1 = "TAKEN"
  · have t2 : (r.2.1 == "MISSED") = false := by simp [t1]
    simp [breakdownStep, t1, t2]
  · by_cases t2 : r.2.1 = "MISSED"
    · have t1b : (r.2.1 == "TAKEN") = false := by simp [t1]
      simp [breakdownStep, t1b, t2]
    · have t1b : (r.2.1 == "TAKEN") = false := by simp [t1]
      have t2b : (r.2.1 == "MISSED") = false := by simp [t2]
      simp [breakdownStep, t1b, t2b]

theorem foldl_breakdownStep :
    ∀ (rs : List (Nat × String × Nat)) (m : Nat → Option (Nat × Nat)) (d : Nat),
      (rs.foldl breakdownStep m) d =
        if rs.any (fun r => r.1 == d)
        then some (finalField "TAKEN" rs d ((m d).getD (0, 0)).1,
                   finalField "MISSED" rs d ((m d).getD (0, 0)).2)
        else m d := by
  intro rs
  induction rs with
  | nil => intro m d; simp [finalField]
  | cons r rest ih =>
    intro m d
    rw [List.foldl_cons, ih (breakdownStep m r) d,
        finalField_cons "TAKEN" r rest d, finalField_cons "MISSED" r rest d,
        List.any_cons]
    by_cases hr : r.1 = d
    · subst hr
      rw [breakdownStep_key m r]
      cases hany : rest.any (fun r2 => r2.1 == r.1) with
      | true => simp [hany, Option.getD_some]
      | false =>
        have hnk : ∀ r2 ∈ rest, r2.1 ≠ r.1 := by
          intro r2 h2 heq
          have hcontra : rest.any (fun r3 => r3.1 == r.1) = true :=
            List.any_eq_true.mpr ⟨r2, h2, by simp [heq]⟩
          rw [hany] at hcontra
          cases hcontra
        simp only [hany, Option.getD_some, beq_self_eq_true, Bool.true_or, if_true,
          Bool.false_eq_true, if_false, Option.some.injEq, Prod.mk.injEq]
        constructor
        · exact (finalField_of_no_key "TAKEN" r.1 rest _ hnk).symm
        · exact (finalField_of_no_key "MISSED" r.1 rest _ hnk).symm
    · have hb : (r.1 == d) = false := by simp [hr]
      rw [breakdownStep_other m r d (fun hh => hr hh.symm), hb]
      simp only [Bool.false_or, Bool.false_and, Bool.false_eq_true, if_false]

theorem any_daily_events {evs : List DoseEvent} {d : Nat} :
    (daily_events evs).any (fun r => r.1 == d) = true ↔ ∃ e ∈ evs, dateOf e = d := by
  rw [List.any_eq_true]
  constructor
  · rintro ⟨r, hr, hrd⟩
    rw [beq_iff_eq] at hrd
    rcases List.mem_flatMap.mp hr with ⟨d2, hd2, hrm⟩
    rcases List.mem_map.mp hrm with ⟨et, _, rfl⟩
    rcases (mem_datesDesc evs).mp hd2 with ⟨e, he, hde⟩
    exact ⟨e, he, hde.trans hrd⟩
  · rintro ⟨e, he, hde⟩
    refine ⟨(d, e.event_type, countOn evs d e.event_type), ?_, by simp⟩
    apply List.mem_flatMap.mpr
    refine ⟨d, (mem_datesDesc evs).mpr ⟨e, he, hde⟩, ?_⟩
    apply List.mem_map.mpr
    exact ⟨e.event_type, mem_eventTypesOn.mpr ⟨e, he, hde, rfl⟩, rfl⟩

theorem events_by_day_eq (evs : List DoseEvent) (d : Nat) :
    events_by_day evs d =
      if (daily_events evs).any (fun r => r.1 == d)
      then some (countOn evs d "TAKEN", countOn evs d "MISSED")
      else none := by
  rw [events_by_day, foldl_breakdownStep]
  simp only [Option.getD_none]
  rw [finalField_daily_events evs "TAKEN" d, finalField_daily_events evs "MISSED" d]

theorem round2_zero : round2 0 = 0 := by
  norm_num [round2, roundHalfEven]

theorem round2_seven_ninths : round2 ((7 : ℚ) / 9 * 100) = 77.78 := by
  have h : (7 : ℚ) / 9 * 100 * 100 = 70000 / 9 := by norm_num
  have hf : (⌊(70000 : ℚ) / 9⌋ : ℤ) = 7777 := by
    rw [Int.floor_eq_iff]
    norm_num
  rw [round2, h, roundHalfEven, hf]
  norm_num

end Lemmas

example : streaks scenarioA = (3, 3) := by decide
example : streaks scenarioB = (2, 2) := by decide
example : events_by_day scenarioB 100 = some (1, 2) := by decide
example : events_by_day scenarioB 101 = none := by decide
example : get_events (some 99) (some 100) (some 4) scenarioB =
    [mkM 100 2, mkM 100 1, mkT 100 0, mkT 99 2] := by decide
example : log_dose (some [("event_type", JVal.str "TAKEN")]) [] =
    (201, [(JVal.str "TAKEN", JVal.null)]) := by decide
example : log_dose (some []) [] = (400, []) := by decide

/-- Claim C1 (code bug): on the spec's scenario — 3 TAKEN on each of days
D-3, D-2, D-1 and a single TAKEN on day D, the most recent date — the
handler returns `current_streak = 3`, not 0.  The scan runs over the dates
in descending order and reads the running counter after the whole scan, so
`current_streak` is the length of the run of complete days at the *oldest*
end of the window, not the run counted backward from the most recent date
as the claim (and the meaning of "current streak") requires. -/
theorem C1_current_streak_scan_direction :
    (get_statistics scenarioA).current_streak = 3 ∧
    (get_statistics scenarioA).current_streak ≠ 0 := by decide

/-- Claim C2: `best_streak` equals the maximum value reached by a counter
that scans the per-date groups in descending date order, increments on each
date with at least 3 TAKEN events and resets to 0 on any other date present
(`counterValues` renders the spec's counter); and on the spec's scenario —
3 TAKEN on D-2, 3 TAKEN on D-1, 1 TAKEN + 2 MISSED on D — it equals 2. -/
theorem C2_best_streak_is_max_of_counter :
    (∀ evs : List DoseEvent,
      (get_statistics evs).best_streak =
        (counterValues 0 (dailyData evs)).foldl max 0) ∧
    (get_statistics scenarioB).best_streak = 2 := by
  refine ⟨fun evs => ?_, by decide⟩
  show ((dailyData evs).foldl streakStep (0, 0)).1 = _
  exact foldl_streakStep_best (dailyData evs) 0 0

/-- Claim C8: a statistics window with zero events yields
`adherence_percentage = 0`, `current_streak = 0` and `best_streak = 0`. -/
theorem C8_empty_window :
    ∀ evs : List DoseEvent, (get_statistics evs).total_doses = 0 →
      (get_statistics evs).adherence_percentage = 0 ∧
      (get_statistics evs).current_streak = 0 ∧
      (get_statistics evs).best_streak = 0 := by
  intro evs h
  have h0 : evs = [] := List.length_eq_zero.mp h
  subst h0
  refine ⟨?_, by decide, by decide⟩
  show round2 0 = 0
  exact round2_zero

/-- Witness for C8: the empty window. -/
theorem C8_empty_window_witness :
    (get_statistics ([] : List DoseEvent)).adherence_percentage = 0 ∧
    (get_statistics ([] : List DoseEvent)).current_streak = 0 ∧
    (get_statistics ([] : List DoseEvent)).best_streak = 0 :=
  C8_empty_window [] (by decide)

/-- Claim C10: `doses_taken + doses_missed ≤ total_doses` always holds, and
the inequality is strict for an event whose type is neither TAKEN nor
MISSED (here `"SKIPPED"`), which is counted in `total_doses` only. -/
theorem C10_taken_missed_bounded_by_total :
    (∀ evs : List DoseEvent,
      (get_statistics evs).doses_taken + (get_statistics evs).doses_missed ≤
        (get_statistics evs).total_doses) ∧
    (get_statistics [skippedEvent]).doses_taken +
        (get_statistics [skippedEvent]).doses_missed <
      (get_statistics [skippedEvent]).total_doses := by
  refine ⟨fun evs => ?_, by decide⟩
  show (evs.filter (fun e => e.event_type == "TAKEN")).length +
      (evs.filter (fun e => e.event_type == "MISSED")).length ≤ evs.length
  exact filter_taken_missed_le evs

/-- Claim C3: the adherence percentage equals `taken / total * 100` rounded
to 2 decimal places when `total > 0` (7 TAKEN out of 9 events yields 77.78)
and equals 0 when `total = 0`. -/
theorem C3_adherence_percentage :
    (∀ evs : List DoseEvent,
      (0 < (get_statistics evs).total_doses →
        (get_statistics evs).adherence_percentage =
          round2 (((get_statistics evs).doses_taken : ℚ) /
            ((get_statistics evs).total_doses : ℚ) * 100)) ∧
      ((get_statistics evs).total_doses = 0 →
        (get_statistics evs).adherence_percentage = 0)) ∧
    (get_statistics scenarioB).adherence_percentage = 77.78 := by
  have key : ∀ evs : List DoseEvent,
      (0 < (get_statistics evs).total_doses →
        (get_statistics evs).adherence_percentage =
          round2 (((get_statistics evs).doses_taken : ℚ) /
            ((get_statistics evs).total_doses : ℚ) * 100)) ∧
      ((get_statistics evs).total_doses = 0 →
        (get_statistics evs).adherence_percentage = 0) := by
    intro evs
    constructor
    · intro h
      have h2 : 0 < evs.length := h
      show round2 (if 0 < evs.length then
          ((evs.filter (fun e => e.event_type == "TAKEN")).length : ℚ) / (evs.length : ℚ) * 100
        else 0) = _
      rw [if_pos h2]
      rfl
    · intro h
      have h0 : evs = [] := List.length_eq_zero.mp h
      subst h0
      show round2 0 = 0
      exact round2_zero
  refine ⟨key, ?_⟩
  have h := (key scenarioB).1 (by decide)
  rw [h]
  have e1 : (get_statistics scenarioB).doses_taken = 7 := by decide
  have e2 : (get_statistics scenarioB).total_doses = 9 := by decide
  rw [e1, e2]
  have hc : ((7 : Nat) : ℚ) / ((9 : Nat) : ℚ) * 100 = (7 : ℚ) / 9 * 100 := by norm_num
  rw [hc]
  exact round2_seven_ninths

/-- Witness for C3: the 7-of-9 scenario for the positive branch and the
empty window for the zero branch. -/
theorem C3_adherence_percentage_witness :
    ((get_statistics scenarioB).adherence_percentage =
      round2 (((get_statistics scenarioB).doses_taken : ℚ) /
        ((get_statistics scenarioB).total_doses : ℚ) * 100)) ∧
    (get_statistics ([] : List DoseEvent)).adherence_percentage = 0 :=
  ⟨(C3_adherence_percentage.1 scenarioB).1 (by decide),
   (C3_adherence_percentage.1 ([] : List DoseEvent)).2 (by decide)⟩

/-- Claim C5: POST /log_dose returns 400 and leaves the store unchanged
whenever the body is absent or has no `event_type` key, and never returns
400 when the body contains `event_type`. -/
theorem C5_log_dose_validation :
    ∀ (data : Option (List (String × JVal))) (db : List (JVal × JVal)),
      ((data = none ∨ ∃ kvs, data = some kvs ∧ "event_type" ∉ kvs.map Prod.fst) →
        log_dose data db = (400, db)) ∧
      (∀ kvs, data = some kvs → "event_type" ∈ kvs.map Prod.fst →
        (log_dose data db).1 ≠ 400) := by
  intro data db
  constructor
  · rintro (rfl | ⟨kvs, rfl, hk⟩)
    · rfl
    · have hany : (kvs.any fun kv => kv.1 == "event_type") = false := by
        rw [List.any_eq_false]
        intro kv hkv
        simp only [beq_iff_eq]
        intro hEq
        exact hk (List.mem_map.mpr ⟨kv, hkv, hEq⟩)
      simp [log_dose, hany]
  · intro kvs hdata hk
    subst hdata
    have hany : (kvs.any fun kv => kv.1 == "event_type") = true := by
      rcases List.mem_map.mp hk with ⟨kv, hkv, hEq⟩
      exact List.any_eq_true.mpr ⟨kv, hkv, by simp [hEq]⟩
    have hne : kvs.isEmpty = false := by
      cases kvs
      · simp at hk
      · rfl
    simp [log_dose, hany, hne]

/-- Witness for C5: a missing body, an empty object, and a body carrying
`event_type`. -/
theorem C5_log_dose_validation_witness :
    log_dose none [] = (400, []) ∧
    log_dose (some []) [] = (400, []) ∧
    (log_dose (some [("event_type", JVal.str "TAKEN")]) []).1 ≠ 400 :=
  ⟨(C5_log_dose_validation none []).1 (Or.inl rfl),
   (C5_log_dose_validation (some []) []).1 (Or.inr ⟨[], rfl, by decide⟩),
   (C5_log_dose_validation (some [("event_type", JVal.str "TAKEN")]) []).2
     [("event_type", JVal.str "TAKEN")] rfl (by decide)⟩

/-- Claim C6: every row returned by GET /api/events comes from the store and
satisfies `start_date 00:00:00 ≤ timestamp` when `start_date` is given and
`timestamp ≤ end_date 23:59:59` when `end_date` is given; a bound whose
parameter is omitted is not applied (the very old `oldRow` is returned when
`start_date` is omitted, the much newer `newRow` when `end_date` is). -/
theorem C6_events_date_range :
    (∀ (db : List DoseEvent) (sd ed lim : Option Nat) (e : DoseEvent),
      e ∈ get_events sd ed lim db →
        e ∈ db ∧
        (∀ d1, sd = some d1 → d1 * secondsPerDay ≤ e.timestamp) ∧
        (∀ d2, ed = some d2 → e.timestamp ≤ d2 * secondsPerDay + 86399)) ∧
    oldRow ∈ get_events none (some 5) (some 10) gapDb ∧
    newRow ∈ get_events (some 5) none (some 10) gapDb := by
  refine ⟨?_, by decide, by decide⟩
  intro db sd ed lim e he
  simp only [get_events] at he
  have h1 := List.take_subset _ _ he
  have h2 := (List.mem_insertionSort tsGe).mp h1
  have h3 := List.mem_filter.mp h2
  refine ⟨h3.1, ?_, ?_⟩
  · intro d1 hd1
    subst hd1
    have hb := h3.2
    simp only [Bool.and_eq_true, decide_eq_true_eq] at hb
    exact hb.1
  · intro d2 hd2
    subst hd2
    have hb := h3.2
    simp only [Bool.and_eq_true, decide_eq_true_eq] at hb
    exact hb.2

/-- Witness for C6: a returned row of the two-bound query over scenarioB. -/
theorem C6_events_date_range_witness :
    mkM 100 2 ∈ scenarioB ∧
    99 * secondsPerDay ≤ (mkM 100 2).timestamp ∧
    (mkM 100 2).timestamp ≤ 100 * secondsPerDay + 86399 := by
  have h := C6_events_date_range.1 scenarioB (some 99) (some 100) (some 4)
    (mkM 100 2) (by decide)
  exact ⟨h.1, h.2.1 99 rfl, h.2.2 100 rfl⟩

/-- Claim C7: GET /api/events with `limit = N` returns at most N rows, the
rows are ordered by timestamp descending, and an omitted limit behaves as
`limit = 100`. -/
theorem C7_events_limit_and_order :
    ∀ (db : List DoseEvent) (sd ed : Option Nat) (n : Nat),
      (get_events sd ed (some n) db).length ≤ n ∧
      List.Pairwise tsGe (get_events sd ed (some n) db) ∧
      get_events sd ed none db = get_events sd ed (some 100) db := by
  intro db sd ed n
  refine ⟨List.length_take_le n _, ?_, rfl⟩
  exact List.Pairwise.sublist (List.take_sublist n _)
    (List.sorted_insertionSort tsGe _)

/-- Claim C4: every per-date row fed to the streak scan has at least one
logged event (`total_doses > 0`), the scan's counter resets to 0 only on a
row with fewer than 3 TAKEN doses, and a calendar date with no events —
being absent from the grouped rows — does not break a streak: with complete
days 100 and 102 and nothing on day 101, `current_streak = best_streak = 2`. -/
theorem C4_streak_resets_only_on_logged_incomplete_dates :
    (∀ (evs : List DoseEvent) (dd : Nat × Nat × Nat), dd ∈ dailyData evs →
      0 < dd.2.1 ∧ ∀ s : Nat × Nat, (streakStep s dd).2 = 0 → dd.2.2 < 3) ∧
    streaks gapEvents = (2, 2) := by
  refine ⟨?_, by decide⟩
  intro evs dd hdd
  rcases List.mem_map.mp hdd with ⟨d, hd, rfl⟩
  constructor
  · rcases (mem_datesDesc evs).mp hd with ⟨e, he, hde⟩
    have hm : e ∈ evs.filter (fun e2 => dateOf e2 == d) :=
      List.mem_filter.mpr ⟨he, by simp [hde]⟩
    exact List.length_pos_of_mem hm
  · intro s hs
    by_contra hge
    push_neg at hge
    simp [streakStep, if_pos hge] at hs

/-- Witness for C4: the incomplete most-recent day of scenarioB (1 TAKEN of
3 events on day 100), on which the scan does reset. -/
theorem C4_streak_resets_witness :
    0 < ((100 : Nat), (3 : Nat), (1 : Nat)).2.1 ∧
    ((100 : Nat), (3 : Nat), (1 : Nat)).2.2 < 3 := by
  have h := C4_streak_resets_only_on_logged_incomplete_dates.1 scenarioB
    (100, 3, 1) (by decide)
  exact ⟨h.1, h.2 (0, 5) (by decide)⟩

/-- Claim C9: the daily breakdown maps each calendar date carrying at least
one event to `(count of TAKEN events that date, count of MISSED events that
date)` — a count whose group row is absent defaults to 0 — and contains no
entry for a date with no events (its counts default to 0 by absence). -/
theorem C9_daily_breakdown :
    ∀ (evs : List DoseEvent) (d : Nat),
      ((∃ e ∈ evs, dateOf e = d) →
        events_by_day evs d = some (countOn evs d "TAKEN", countOn evs d "MISSED")) ∧
      ((¬ ∃ e ∈ evs, dateOf e = d) → events_by_day evs d = none) := by
  intro evs d
  rw [events_by_day_eq]
  constructor
  · intro h
    rw [if_pos (any_daily_events.mpr h)]
  · intro h
    rw [if_neg (fun hc => h (any_daily_events.mp hc))]

/-- Witness for C9: scenarioB's day 100 (1 TAKEN, 2 MISSED) and its
event-free day 101. -/
theorem C9_daily_breakdown_witness :
    events_by_day scenarioB 100 = some (1, 2) ∧ events_by_day scenarioB 101 = none := by
  have h1 := (C9_daily_breakdown scenarioB 100).1 (by decide)
  have h2 := (C9_daily_breakdown scenarioB 101).2 (by decide)
  refine ⟨?_, h2⟩
  rw [h1]
  decide

end MedDispenser
